import Mathlib

/-
Verification of src/parser1.py (HHruParser): a paginated vacancy
fetch-and-enrich pipeline.  JSON payloads are modelled by the inductive
type `Json`; Python dict access, truthiness, iteration and exception
propagation are made explicit.  An exception inside the per-item try
block of `_process_vacancies` is `none`; the listing loop of
`fetch_vacancies` is a fuel-indexed recursion that also records which
page indices were requested.
-/

/-- A JSON value, as produced by `response.json()` in parser1.py.
Numbers are modelled as integers (the payload fields the program touches
are ids, salary bounds and flags). -/
inductive Json where
  | null : Json
  | bool (b : Bool) : Json
  | num (n : Int) : Json
  | str (s : String) : Json
  | arr (elems : List Json) : Json
  | obj (fields : List (String × Json)) : Json

/-- Python truthiness on JSON values: `None`, `False`, `0`, `""`, `[]`
and `{}` are falsy, everything else truthy.  Used by
`if not data.get("items")` (line 52) and `if not salary_data` (line 93). -/
def Json.falsy : Json → Bool
  | .null => true
  | .bool b => !b
  | .num n => n == 0
  | .str s => s == ""
  | .arr l => l.isEmpty
  | .obj l => l.isEmpty

/-- Dict field lookup (`d[k]` / `k in d`): first binding wins. -/
def lookupJ (l : List (String × Json)) (k : String) : Option Json :=
  match l with
  | [] => none
  | (k1, v) :: rest => if k1 = k then some v else lookupJ rest k

/-- Python `d.get(k)`: the stored value if the key is present, else
`None` (JSON null). -/
def jget (l : List (String × Json)) (k : String) : Json :=
  match lookupJ l k with
  | some v => v
  | none => Json.null

/-- Python `d.get(k, default)`. -/
def jgetD (l : List (String × Json)) (k : String) (d : Json) : Json :=
  match lookupJ l k with
  | some v => v
  | none => d

/-- Subscripting / `.get` on a value requires a dict; any other value
raises (TypeError / AttributeError), modelled as `none`. -/
def asObj : Json → Option (List (String × Json))
  | Json.obj l => some l
  | _ => none

/-- An HTTP exchange as seen by `requests.get`: either the request
raises a `RequestException` (network error, timeout), or a response
arrives with a status code and a body that either parses as JSON
(`some`) or fails to parse (`none`, `response.json()` raises). -/
inductive HResp where
  | fail : HResp
  | resp (status : Nat) (body : Option Json) : HResp

/-- The detail call (line 68-72): `requests.get(...).json()` with no
status check; `none` when the request raises or the body fails to
parse, otherwise the parsed body.  The status code is never consulted. -/
def detailJson : HResp → Option Json
  | .fail => none
  | .resp _ body => body

/-- The listing call (lines 48-50): `requests.get` followed by
`response.raise_for_status()` (which raises exactly for statuses in
[400, 600)) and `response.json()`.  All three failure modes raise a
`RequestException`, caught at line 60; `none` means that exception. -/
def listingJson : HResp → Option Json
  | .fail => none
  | .resp st body => if 400 ≤ st ∧ st < 600 then none else body

/-- The four-field salary dict built by `_parse_salary` (lines 95-100).
Field values are the raw JSON values copied from the source salary
object (null when the source key is absent). -/
structure Salary where
  from_ : Json
  to_ : Json
  currency : Json
  gross : Json

/-- The `Vacancy` dataclass (lines 17-24).  Field values are kept as
raw JSON values since Python performs no type enforcement. -/
structure Vacancy where
  title : Json
  company : Json
  salary : Option Salary
  url : Json
  description : Json
  skills : List Json

/-- `_parse_salary` (lines 90-100): falsy input (None, `{}`, ...) gives
`None`; a truthy dict gives the four-field dict via `.get`; a truthy
non-dict raises AttributeError on `.get` (outer `none`). -/
def parse_salary (salary_data : Json) : Option (Option Salary) :=
  if salary_data.falsy then some none
  else
    match salary_data with
    | Json.obj sl =>
        some (some ⟨jget sl "from", jget sl "to", jget sl "currency", jget sl "gross"⟩)
    | _ => none

/-- The comprehension body `skill["name"]` (line 74): the element must
be a dict with a `name` key, else a TypeError/KeyError raises. -/
def skillName (s : Json) : Option Json := do
  let sl ← asObj s
  lookupJ sl "name"

/-- `[skill["name"] for skill in full_info.get("key_skills", [])]`
(line 74).  Absent key defaults to `[]`.  A present list is mapped;
the empty string and the empty dict iterate to nothing; any other
present value (null, number, bool, non-empty string or dict) raises
when iterated or subscripted. -/
def extract_skills (fl : List (String × Json)) : Option (List Json) :=
  match lookupJ fl "key_skills" with
  | none => some []
  | some (Json.arr items) => items.mapM skillName
  | some (Json.str "") => some []
  | some (Json.obj []) => some []
  | some _ => none

/-- One iteration of the loop body of `_process_vacancies`
(lines 66-85), with the surrounding try/except: `none` means some step
raised and the item is skipped; `some v` means `v` is appended.
`detail` maps the item id to its detail-request exchange. -/
def process_one (detail : Json → HResp) (vacancy_data : Json) : Option Vacancy := do
  let l ← asObj vacancy_data
  let id ← lookupJ l "id"
  let full_info ← detailJson (detail id)
  let fl ← asObj full_info
  let skills ← extract_skills fl
  let salary ← parse_salary (jget l "salary")
  let title ← lookupJ l "name"
  let emp ← lookupJ l "employer"
  let el ← asObj emp
  let company ← lookupJ el "name"
  let url ← lookupJ l "alternate_url"
  pure ⟨title, company, salary, url, jgetD fl "description" (Json.str ""), skills⟩

/-- `_process_vacancies` (lines 64-88): iterate the page's items in
order, appending a record for each successfully processed item to the
accumulated list; a failed item is logged and skipped. -/
def process_vacancies (detail : Json → HResp) : List Json → List Vacancy → List Vacancy
  | [], acc => acc
  | x :: xs, acc =>
    match process_one detail x with
    | some v => process_vacancies detail xs (acc ++ [v])
    | none => process_vacancies detail xs acc

/-- Python iteration over the `items` value inside
`_process_vacancies`: a list yields its elements, a string its
characters, a dict its keys; other values raise TypeError at the `for`
statement, which is not caught anywhere (`none`). -/
def iterElems : Json → Option (List Json)
  | Json.arr l => some l
  | Json.str s => some (s.toList.map fun c => Json.str (String.mk [c]))
  | Json.obj l => some (l.map fun p => Json.str p.1)
  | _ => none

/-- How `fetch_vacancies` ends: `ok` is a normal return (loop finished,
or `break` on a caught request error or an empty page); `crash` is an
uncaught exception escaping the method.  Both carry the collector's
accumulated records at that moment. -/
inductive FetchOutcome where
  | ok (recs : List Vacancy) : FetchOutcome
  | crash (recs : List Vacancy) : FetchOutcome

/-- The records held by the collector when the fetch ends. -/
def FetchOutcome.recs : FetchOutcome → List Vacancy
  | .ok r => r
  | .crash r => r

/-- A run of the listing loop: the page indices for which a listing
request was issued, in order, and the outcome. -/
structure FetchTrace where
  requested : List Nat
  outcome : FetchOutcome

/-- The loop of `fetch_vacancies` (lines 40-62), with remaining
iterations `fuel`, current page index `page`, and current accumulated
records `acc`.  Per iteration: issue the listing request; a caught
`RequestException` breaks; a non-dict body crashes at `.get`; falsy
`items` breaks; a non-iterable truthy `items` crashes at the `for`;
otherwise the items are processed and the loop advances. -/
def fetch_run (listing : Nat → HResp) (detail : Json → HResp) :
    Nat → Nat → List Vacancy → FetchTrace
  | 0, _, acc => ⟨[], .ok acc⟩
  | fuel + 1, page, acc =>
    match listingJson (listing page) with
    | none => ⟨[page], .ok acc⟩
    | some data =>
      match data with
      | Json.obj l =>
        if (jget l "items").falsy then ⟨[page], .ok acc⟩
        else
          match iterElems (jget l "items") with
          | none => ⟨[page], .crash acc⟩
          | some elems =>
            let t := fetch_run listing detail fuel (page + 1)
                       (process_vacancies detail elems acc)
            ⟨page :: t.requested, t.outcome⟩
      | _ => ⟨[page], .crash acc⟩

/-- `self.found_vacancies` right after `__init__` (line 36). -/
def initial_found_vacancies : List Vacancy := []

/-- `fetch_vacancies` (lines 38-62): pages 0 .. max_pages-1 starting
from the freshly constructed collector state. -/
def fetch_vacancies (listing : Nat → HResp) (detail : Json → HResp)
    (max_pages : Nat) : FetchTrace :=
  fetch_run listing detail max_pages 0 initial_found_vacancies

/-- `asdict` on the salary sub-dict: the dict is already plain data;
`None` stays JSON null. -/
def salary_to_json : Option Salary → Json
  | none => Json.null
  | some s =>
      Json.obj [("from", s.from_), ("to", s.to_), ("currency", s.currency), ("gross", s.gross)]

/-- `asdict(vacancy)` (line 106): the dataclass as a six-key JSON
object, fields in declaration order. -/
def asdictV (v : Vacancy) : Json :=
  Json.obj [("title", v.title), ("company", v.company),
            ("salary", salary_to_json v.salary), ("url", v.url),
            ("description", v.description), ("skills", Json.arr v.skills)]

/-- `save_to_json` (lines 102-111) at the JSON-value level: the single
array `[asdict(v) for v in self.found_vacancies]` handed to
`json.dump`.  The textual encoding (`ensure_ascii=False`, `indent=4`,
mode "w") is the external json module and file layer, excluded by the
spec as file-writing mechanics. -/
def save_to_json (recs : List Vacancy) : Json :=
  Json.arr (recs.map asdictV)

/-- Modelled from the spec: re-parsing one serialized salary value, the
inverse reading of `salary_to_json` that a generic JSON reader of the
output file performs (the repository contains no reader). -/
def reparse_salary : Json → Option (Option Salary)
  | Json.null => some none
  | Json.obj sl =>
      some (some ⟨jget sl "from", jget sl "to", jget sl "currency", jget sl "gross"⟩)
  | _ => none

/-- Modelled from the spec: re-parsing one serialized record from the
output array back into its six field values. -/
def reparse_record (j : Json) : Option Vacancy := do
  let l ← asObj j
  let title ← lookupJ l "title"
  let company ← lookupJ l "company"
  let salary ← reparse_salary (jget l "salary")
  let url ← lookupJ l "url"
  let description ← lookupJ l "description"
  let skills ← match lookupJ l "skills" with
               | some (Json.arr a) => some a
               | _ => none
  pure ⟨title, company, salary, url, description, skills⟩

/-- Modelled from the spec: re-parsing each element of the output array
in order. -/
def reparse_list : List Json → Option (List Vacancy)
  | [] => some []
  | j :: js => do
      let v ← reparse_record j
      let vs ← reparse_list js
      pure (v :: vs)

/-- Modelled from the spec: re-parsing the whole output file, a JSON
array of records. -/
def reparse_records (j : Json) : Option (List Vacancy) :=
  match j with
  | Json.arr l => reparse_list l
  | _ => none

/-
Concrete payloads used by the closed witness and counterexample
theorems below: well-formed listing items, detail environments that
fail or return various bodies, and listing environments for the page
loop.
-/

def sampleItem (i : String) : Json :=
  Json.obj [("id", Json.str i), ("name", Json.str ("title" ++ i)),
            ("employer", Json.obj [("name", Json.str "acme")]),
            ("alternate_url", Json.str ("url" ++ i))]

def sampleDetail : Json → HResp
  | Json.str "2" => HResp.fail
  | _ => HResp.resp 200 (some (Json.obj
      [("description", Json.str "d"),
       ("key_skills", Json.arr [Json.obj [("name", Json.str "Python")]])]))

def sampleVac (i : String) : Vacancy :=
  ⟨Json.str ("title" ++ i), Json.str "acme", none, Json.str ("url" ++ i),
   Json.str "d", [Json.str "Python"]⟩

def c2listing : Nat → HResp := fun _ =>
  HResp.resp 301 (some (Json.obj [("items", Json.arr [sampleItem "9"])]))

def c4listing : Nat → HResp := fun _ =>
  HResp.resp 200 (some (Json.obj [("items", Json.arr [])]))

def c3detail : Json → HResp := fun _ => HResp.resp 200 (some (Json.obj []))

def c3item : Json :=
  Json.obj [("id", Json.str "1"), ("salary", Json.obj []), ("name", Json.str "t"),
            ("employer", Json.obj [("name", Json.str "c")]),
            ("alternate_url", Json.str "u")]

def c3wItem : List (String × Json) :=
  [("id", Json.str "7"), ("name", Json.str "t7"),
   ("employer", Json.obj [("name", Json.str "c")]),
   ("alternate_url", Json.str "u7")]

def c8detail : Json → HResp := fun _ =>
  HResp.resp 200 (some (Json.obj [("description", Json.str "x")]))

def c8item : List (String × Json) :=
  [("id", Json.str "8"), ("name", Json.str "t8"),
   ("employer", Json.obj [("name", Json.str "c")]),
   ("alternate_url", Json.str "u8")]

def c9detail : Json → HResp := fun _ =>
  HResp.resp 404 (some (Json.obj [("errors", Json.arr [Json.obj [("type", Json.str "not_found")]])]))

def c9item : List (String × Json) :=
  [("id", Json.str "9"), ("name", Json.str "t9"),
   ("employer", Json.obj [("name", Json.str "c")]),
   ("alternate_url", Json.str "u9")]

def c10detail : Json → HResp := fun _ =>
  HResp.resp 200 (some (Json.obj [("key_skills", Json.null)]))

def c10item : List (String × Json) :=
  [("id", Json.str "10"), ("name", Json.str "t10"),
   ("employer", Json.obj [("name", Json.str "c")]),
   ("alternate_url", Json.str "u10")]

/-
General lemmas about the embedding, shared by the claim theorems.
-/

theorem process_vacancies_eq (detail : Json → HResp) (xs : List Json) (acc : List Vacancy) :
    process_vacancies detail xs acc = acc ++ xs.filterMap (process_one detail) := by
  induction xs generalizing acc with
  | nil => simp [process_vacancies]
  | cons x xs ih =>
    cases h : process_one detail x with
    | none => simp [process_vacancies, h, ih]
    | some v => simp [process_vacancies, h, ih]

theorem fetch_run_requested (listing : Nat → HResp) (detail : Json → HResp)
    (fuel page : Nat) (acc : List Vacancy) :
    ∃ m, m ≤ fuel ∧ (fetch_run listing detail fuel page acc).requested = List.range' page m := by
  induction fuel generalizing page acc with
  | zero => exact ⟨0, le_refl 0, rfl⟩
  | succ fuel ih =>
    unfold fetch_run
    cases hl : listingJson (listing page) with
    | none => exact ⟨1, by omega, rfl⟩
    | some data =>
      cases data with
      | obj l =>
        by_cases hf : (jget l "items").falsy
        · refine ⟨1, by omega, ?_⟩
          simp [hf]
        · cases hi : iterElems (jget l "items") with
          | none => refine ⟨1, by omega, ?_⟩; simp [hf, hi]
          | some elems =>
            obtain ⟨m, hm, hr⟩ := ih (page + 1) (process_vacancies detail elems acc)
            refine ⟨m + 1, by omega, ?_⟩
            simp [hf, hi, hr, List.range'_succ]
      | null => exact ⟨1, by omega, rfl⟩
      | bool b => exact ⟨1, by omega, rfl⟩
      | num n => exact ⟨1, by omega, rfl⟩
      | str s => exact ⟨1, by omega, rfl⟩
      | arr a => exact ⟨1, by omega, rfl⟩

theorem fetch_run_recs_grow (listing : Nat → HResp) (detail : Json → HResp)
    (fuel page : Nat) (acc : List Vacancy) :
    ∃ t, (fetch_run listing detail fuel page acc).outcome.recs = acc ++ t := by
  induction fuel generalizing page acc with
  | zero => exact ⟨[], by simp [fetch_run, FetchOutcome.recs]⟩
  | succ fuel ih =>
    unfold fetch_run
    cases hl : listingJson (listing page) with
    | none => exact ⟨[], by simp [FetchOutcome.recs]⟩
    | some data =>
      cases data with
      | obj l =>
        by_cases hf : (jget l "items").falsy
        · exact ⟨[], by simp [hf, FetchOutcome.recs]⟩
        · cases hi : iterElems (jget l "items") with
          | none => exact ⟨[], by simp [hf, hi, FetchOutcome.recs]⟩
          | some elems =>
            obtain ⟨t, ht⟩ := ih (page + 1) (process_vacancies detail elems acc)
            rw [process_vacancies_eq] at ht
            refine ⟨List.filterMap (process_one detail) elems ++ t, ?_⟩
            simp only [hf, hi, Bool.false_eq_true, if_false]
            rw [process_vacancies_eq, ht, List.append_assoc]
      | null => exact ⟨[], by simp [FetchOutcome.recs]⟩
      | bool b => exact ⟨[], by simp [FetchOutcome.recs]⟩
      | num n => exact ⟨[], by simp [FetchOutcome.recs]⟩
      | str s => exact ⟨[], by simp [FetchOutcome.recs]⟩
      | arr a => exact ⟨[], by simp [FetchOutcome.recs]⟩

theorem process_one_inv {detail : Json → HResp} {item : Json} {v : Vacancy}
    (h : process_one detail item = some v) :
    ∃ l id full_info fl skills salary title emp el company url,
      asObj item = some l ∧
      lookupJ l "id" = some id ∧
      detailJson (detail id) = some full_info ∧
      asObj full_info = some fl ∧
      extract_skills fl = some skills ∧
      parse_salary (jget l "salary") = some salary ∧
      lookupJ l "name" = some title ∧
      lookupJ l "employer" = some emp ∧
      asObj emp = some el ∧
      lookupJ el "name" = some company ∧
      lookupJ l "alternate_url" = some url ∧
      v = ⟨title, company, salary, url, jgetD fl "description" (Json.str ""), skills⟩ := by
  simp only [process_one, Option.bind_eq_bind, Option.bind_eq_some, Option.pure_def,
    Option.some.injEq] at h
  obtain ⟨l, h1, id, h2, fi, h3, fl, h4, sk, h5, sal, h6, ti, h7, em, h8, el, h9, co, h10,
    ur, h11, hv⟩ := h
  exact ⟨l, id, fi, fl, sk, sal, ti, em, el, co, ur, h1, h2, h3, h4, h5, h6, h7, h8, h9,
    h10, h11, hv.symm⟩

theorem reparse_record_asdict (v : Vacancy) : reparse_record (asdictV v) = some v := by
  obtain ⟨t, c, s, u, d, sk⟩ := v
  cases s with
  | none => rfl
  | some sal => obtain ⟨f, t2, cu, g⟩ := sal; rfl

theorem reparse_list_asdict (vs : List Vacancy) :
    reparse_list (vs.map asdictV) = some vs := by
  induction vs with
  | nil => rfl
  | cons v vs ih => simp [reparse_list, reparse_record_asdict, ih]

/-- C1: during page item processing, an item for which any step raises
(detail failure, missing field, malformed payload) is skipped with no
record appended, processing continues with the remaining items of the
page, and in particular a page of three items whose second item fails
yields exactly the records of items 1 and 3, in that order, appended
after the existing records. -/
theorem per_item_failure_skips_only_that_item :
    (∀ (detail : Json → HResp) (x : Json) (xs : List Json) (acc : List Vacancy),
       process_one detail x = none →
       process_vacancies detail (x :: xs) acc = process_vacancies detail xs acc) ∧
    (∀ (detail : Json → HResp) (i1 i2 i3 : Json) (v1 v3 : Vacancy) (acc : List Vacancy),
       process_one detail i1 = some v1 → process_one detail i2 = none →
       process_one detail i3 = some v3 →
       process_vacancies detail [i1, i2, i3] acc = acc ++ [v1, v3]) := by
  constructor
  · intro detail x xs acc h
    simp [process_vacancies, h]
  · intro detail i1 i2 i3 v1 v3 acc h1 h2 h3
    simp [process_vacancies_eq, List.filterMap, h1, h2, h3]

/-- C1 witness: a concrete page of three items whose second item's
detail request fails. -/
theorem per_item_failure_witness :
    process_one sampleDetail (sampleItem "1") = some (sampleVac "1") ∧
    process_one sampleDetail (sampleItem "2") = none ∧
    process_one sampleDetail (sampleItem "3") = some (sampleVac "3") ∧
    process_vacancies sampleDetail [sampleItem "1", sampleItem "2", sampleItem "3"] [] =
      [sampleVac "1", sampleVac "3"] :=
  ⟨rfl, rfl, rfl,
   per_item_failure_skips_only_that_item.2 sampleDetail _ _ _ _ _ [] rfl rfl rfl⟩

/-- C2 counterexample: a listing response with the non-2xx status 301
and a parseable body with items does not terminate the fetch -- page 1
is still requested after page 0, refuting the claim that any non-2xx
status terminates it. -/
theorem non2xx_listing_counterexample :
    c2listing 0 = HResp.resp 301 (some (Json.obj [("items", Json.arr [sampleItem "9"])])) ∧
    (fetch_vacancies c2listing (fun _ => HResp.fail) 2).requested = [0, 1] :=
  ⟨rfl, rfl⟩

/-- C2 amended: if a listing request raises (network error, timeout),
returns a 4xx/5xx status (raise_for_status), or returns a body that
fails to parse as JSON, fetch_vacancies terminates immediately: exactly
that one page was requested in this loop step, no further listing
request is issued, and the accumulated records are returned unchanged. -/
theorem listing_failure_stops_fetch :
    (∀ (listing : Nat → HResp) (detail : Json → HResp) (fuel page : Nat) (acc : List Vacancy),
       listing page = HResp.fail →
       fetch_run listing detail (fuel + 1) page acc = ⟨[page], FetchOutcome.ok acc⟩) ∧
    (∀ (listing : Nat → HResp) (detail : Json → HResp) (fuel page : Nat) (acc : List Vacancy)
       (st : Nat) (body : Option Json),
       listing page = HResp.resp st body → 400 ≤ st → st < 600 →
       fetch_run listing detail (fuel + 1) page acc = ⟨[page], FetchOutcome.ok acc⟩) ∧
    (∀ (listing : Nat → HResp) (detail : Json → HResp) (fuel page : Nat) (acc : List Vacancy)
       (st : Nat),
       listing page = HResp.resp st none →
       fetch_run listing detail (fuel + 1) page acc = ⟨[page], FetchOutcome.ok acc⟩) := by
  refine ⟨?_, ?_, ?_⟩
  · intro listing detail fuel page acc h
    simp [fetch_run, h, listingJson]
  · intro listing detail fuel page acc st body h h4 h6
    simp [fetch_run, h, listingJson, h4, h6]
  · intro listing detail fuel page acc st h
    simp [fetch_run, h, listingJson]

/-- C2 witness: a listing environment that always raises stops the
loop on its first page with the records intact. -/
theorem listing_failure_witness :
    (fun _ : Nat => HResp.fail) 0 = HResp.fail ∧
    fetch_run (fun _ => HResp.fail) (fun _ => HResp.fail) 3 0 [] =
      ⟨[0], FetchOutcome.ok []⟩ :=
  ⟨rfl, listing_failure_stops_fetch.1 _ _ 2 0 [] rfl⟩

/-- C3 counterexample: a listing item whose salary field is present but
is the empty object yields an absent salary (the code tests Python
truthiness, not presence), not a structure of four null fields as the
claim states for every present salary structure. -/
theorem empty_salary_object_counterexample :
    parse_salary (Json.obj []) = some none ∧
    (process_one c3detail c3item).map Vacancy.salary = some none :=
  ⟨rfl, rfl⟩

/-- C3 amended: an absent (null) salary yields an absent salary; a
present non-empty salary object yields a structure of exactly four
fields, each copied from the corresponding source field when present
and null otherwise; a present but falsy salary value (such as the
empty object) also yields an absent salary; and a record built from an
item without a salary key has an absent salary. -/
theorem salary_normalization_amended :
    parse_salary Json.null = some none ∧
    (∀ (p : String × Json) (sl : List (String × Json)),
       parse_salary (Json.obj (p :: sl)) =
         some (some ⟨jget (p :: sl) "from", jget (p :: sl) "to",
                     jget (p :: sl) "currency", jget (p :: sl) "gross"⟩)) ∧
    parse_salary (Json.obj [("from", Json.num 100000)]) =
      some (some ⟨Json.num 100000, Json.null, Json.null, Json.null⟩) ∧
    (∀ (detail : Json → HResp) (l : List (String × Json)) (v : Vacancy),
       lookupJ l "salary" = none →
       process_one detail (Json.obj l) = some v → v.salary = none) := by
  refine ⟨rfl, ?_, rfl, ?_⟩
  · intro p sl
    simp [parse_salary, Json.falsy]
  · intro detail l v h1 h2
    obtain ⟨l2, id, fi, fl, sk, sal, ti, em, el, co, ur, g1, g2, g3, g4, g5, g6, g7,
      g8, g9, g10, g11, hv⟩ := process_one_inv h2
    have hl : l = l2 := by simpa [asObj] using g1
    subst hl
    have hj : jget l "salary" = Json.null := by simp [jget, h1]
    rw [hj] at g6
    have : none = sal := by simpa [parse_salary, Json.falsy] using g6
    rw [hv, this.symm]

/-- C3 witness: a concrete item without a salary key yields a record
with absent salary, and a salary object holding only "to" keeps it and
nulls the rest. -/
theorem salary_normalization_witness :
    lookupJ c3wItem "salary" = none ∧
    process_one c3detail (Json.obj c3wItem) = some
      ⟨Json.str "t7", Json.str "c", none, Json.str "u7", Json.str "", []⟩ ∧
    (⟨Json.str "t7", Json.str "c", none, Json.str "u7", Json.str "", []⟩ : Vacancy).salary
      = none ∧
    parse_salary (Json.obj [("to", Json.num 5)]) =
      some (some ⟨Json.null, Json.num 5, Json.null, Json.null⟩) :=
  ⟨rfl, rfl,
   salary_normalization_amended.2.2.2 c3detail c3wItem _ rfl rfl,
   salary_normalization_amended.2.1 ("to", Json.num 5) []⟩

/-- C4: a listing response that parses to an object whose items field
is the empty list terminates the fetch as a normal break: exactly this
page was requested in this loop step, the outcome is a normal return,
and the accumulated records are unchanged. -/
theorem empty_page_stops_fetch (listing : Nat → HResp) (detail : Json → HResp)
    (fuel page : Nat) (acc : List Vacancy) (l : List (String × Json))
    (h1 : listingJson (listing page) = some (Json.obj l))
    (h2 : jget l "items" = Json.arr []) :
    fetch_run listing detail (fuel + 1) page acc = ⟨[page], FetchOutcome.ok acc⟩ := by
  simp [fetch_run, h1, h2, Json.falsy]

/-- C4 witness: a concrete listing environment returning an empty items
list stops the loop at page 0 with no records. -/
theorem empty_page_witness :
    listingJson (c4listing 0) = some (Json.obj [("items", Json.arr [])]) ∧
    jget [("items", Json.arr [])] "items" = Json.arr [] ∧
    fetch_run c4listing (fun _ => HResp.fail) 3 0 [] = ⟨[0], FetchOutcome.ok []⟩ :=
  ⟨rfl, rfl, empty_page_stops_fetch c4listing _ 2 0 [] _ rfl rfl⟩

/-- C5: for maxPages = N the fetch requests a prefix of the page
indices 0 .. N-1 in ascending order (at most N listing requests);
previously accumulated records are always an initial segment of the
final records; and a page's items are processed in source order, the
produced records being appended in that order. -/
theorem pagination_order :
    (∀ (listing : Nat → HResp) (detail : Json → HResp) (N : Nat),
       ∃ m, m ≤ N ∧ (fetch_vacancies listing detail N).requested = List.range m) ∧
    (∀ (listing : Nat → HResp) (detail : Json → HResp) (fuel page : Nat) (acc : List Vacancy),
       ∃ t, ((fetch_run listing detail fuel page acc).outcome).recs = acc ++ t) ∧
    (∀ (detail : Json → HResp) (xs : List Json) (acc : List Vacancy),
       process_vacancies detail xs acc = acc ++ xs.filterMap (process_one detail)) := by
  refine ⟨?_, fetch_run_recs_grow, process_vacancies_eq⟩
  intro listing detail N
  obtain ⟨m, hm, hr⟩ := fetch_run_requested listing detail N 0 initial_found_vacancies
  exact ⟨m, hm, by rw [fetch_vacancies, hr, List.range_eq_range']⟩

/-- C6: the collection is empty at collector construction; page
processing only appends (the prior records stay an unchanged initial
segment, extended by one record per successfully processed item in
order); every fetch outcome preserves the prior records as an
unchanged initial segment; and serialization is a pure read of the
records. -/
theorem records_lifecycle :
    initial_found_vacancies = [] ∧
    (∀ (detail : Json → HResp) (xs : List Json) (acc : List Vacancy),
       process_vacancies detail xs acc = acc ++ xs.filterMap (process_one detail)) ∧
    (∀ (listing : Nat → HResp) (detail : Json → HResp) (fuel page : Nat) (acc : List Vacancy),
       ∃ t, ((fetch_run listing detail fuel page acc).outcome).recs = acc ++ t) ∧
    (∀ recs : List Vacancy, save_to_json recs = Json.arr (recs.map asdictV)) :=
  ⟨rfl, process_vacancies_eq, fetch_run_recs_grow, fun _ => rfl⟩

/-- C7: serializing N accumulated records produces the single JSON
array of their six-field objects, and re-parsing that output yields
exactly the same N records with identical field values, in the same
order. -/
theorem serialize_round_trip (recs : List Vacancy) :
    save_to_json recs = Json.arr (recs.map asdictV) ∧
    reparse_records (save_to_json recs) = some recs :=
  ⟨rfl, by simp [reparse_records, save_to_json, reparse_list_asdict]⟩

/-- C8: a detail response without a key_skills field yields an empty
skills sequence; when key_skills is a list of objects, skills is the
ordered sequence of their name fields; and a successfully processed
record built from a detail body without key_skills has empty skills. -/
theorem skills_extraction :
    (∀ fl : List (String × Json),
       lookupJ fl "key_skills" = none → extract_skills fl = some []) ∧
    (∀ (fl : List (String × Json)) (items : List Json) (names : List Json),
       lookupJ fl "key_skills" = some (Json.arr items) →
       items.mapM skillName = some names → extract_skills fl = some names) ∧
    extract_skills [("key_skills", Json.arr [Json.obj [("name", Json.str "Python")],
                                             Json.obj [("name", Json.str "SQL")]])] =
      some [Json.str "Python", Json.str "SQL"] ∧
    (∀ (detail : Json → HResp) (l fl : List (String × Json)) (id : Json) (v : Vacancy),
       lookupJ l "id" = some id →
       detailJson (detail id) = some (Json.obj fl) →
       lookupJ fl "key_skills" = none →
       process_one detail (Json.obj l) = some v → v.skills = []) := by
  refine ⟨?_, ?_, rfl, ?_⟩
  · intro fl h
    simp [extract_skills, h]
  · intro fl items names h1 h2
    unfold extract_skills
    rw [h1]
    exact h2
  · intro detail l fl id v h1 h2 h3 h4
    obtain ⟨l2, id2, fi, fl2, sk, sal, ti, em, el, co, ur, g1, g2, g3, g4, g5, g6, g7,
      g8, g9, g10, g11, hv⟩ := process_one_inv h4
    have hl : l = l2 := by simpa [asObj] using g1
    subst hl
    rw [h1] at g2
    injection g2 with g2
    subst g2
    rw [h2] at g3
    injection g3 with g3
    subst g3
    have hfl := (Option.some.injEq _ _).mp ((rfl : asObj (Json.obj fl) = some fl) ▸ g4)
    subst hfl
    have he : extract_skills fl = some [] := by
      unfold extract_skills
      rw [h3]
    rw [he] at g5
    injection g5 with g5
    subst g5
    rw [hv]

/-- C8 witness: a concrete detail body without key_skills yields a
record whose skills sequence is empty. -/
theorem skills_extraction_witness :
    lookupJ c8item "id" = some (Json.str "8") ∧
    detailJson (c8detail (Json.str "8")) = some (Json.obj [("description", Json.str "x")]) ∧
    lookupJ [("description", Json.str "x")] "key_skills" = none ∧
    process_one c8detail (Json.obj c8item) = some
      ⟨Json.str "t8", Json.str "c", none, Json.str "u8", Json.str "x", []⟩ ∧
    (⟨Json.str "t8", Json.str "c", none, Json.str "u8", Json.str "x", []⟩ : Vacancy).skills
      = [] :=
  ⟨rfl, rfl, rfl, rfl,
   skills_extraction.2.2.2 c8detail c8item [("description", Json.str "x")] (Json.str "8")
     _ rfl rfl rfl rfl⟩

/-- C9: item processing depends only on the parsed body of the detail
response, never on its status code; whatever the status (it is
unconstrained below), a detail response whose body parses as a JSON
object without description or key_skills still yields an appended
record with empty description and empty skills. -/
theorem detail_status_never_checked :
    (∀ d1 d2 : Json → HResp, (∀ j, detailJson (d1 j) = detailJson (d2 j)) →
       ∀ item, process_one d1 item = process_one d2 item) ∧
    (∀ (detail : Json → HResp) (l fl el : List (String × Json))
       (id title emp company url : Json) (st : Nat) (sal : Option Salary),
       lookupJ l "id" = some id →
       detail id = HResp.resp st (some (Json.obj fl)) →
       lookupJ fl "key_skills" = none →
       lookupJ fl "description" = none →
       parse_salary (jget l "salary") = some sal →
       lookupJ l "name" = some title →
       lookupJ l "employer" = some emp →
       asObj emp = some el →
       lookupJ el "name" = some company →
       lookupJ l "alternate_url" = some url →
       process_one detail (Json.obj l) =
         some ⟨title, company, sal, url, Json.str "", []⟩) := by
  constructor
  · intro d1 d2 h item
    simp only [process_one, h]
  · intro detail l fl el id title emp company url st sal h1 h2 h3 h4 h5 h6 h7 h8 h9 h10
    have ha : asObj (Json.obj l) = some l := rfl
    have ha2 : asObj (Json.obj fl) = some fl := rfl
    simp [process_one, ha, ha2, h1, h2, detailJson, extract_skills, h3, jgetD, h4, h5,
      h6, h7, h8, h9, h10]

/-- C9 witness: a 404 detail response with a JSON error body still
produces a record with empty description and skills. -/
theorem detail_status_never_checked_witness :
    c9detail (Json.str "9") = HResp.resp 404 (some (Json.obj
      [("errors", Json.arr [Json.obj [("type", Json.str "not_found")]])])) ∧
    process_one c9detail (Json.obj c9item) = some
      ⟨Json.str "t9", Json.str "c", none, Json.str "u9", Json.str "", []⟩ :=
  ⟨rfl,
   detail_status_never_checked.2 c9detail c9item _ _ (Json.str "9") (Json.str "t9")
     (Json.obj [("name", Json.str "c")]) (Json.str "c") (Json.str "u9") 404 none
     rfl rfl rfl rfl rfl rfl rfl rfl rfl rfl⟩

/-- C10: a detail response in which key_skills is present with a null
value makes skill extraction raise, so the whole item is skipped (no
record) under the per-item failure policy, and the skipped item leaves
page processing unchanged. -/
theorem null_key_skills_skips_item :
    (∀ (detail : Json → HResp) (l fl : List (String × Json)) (id : Json),
       lookupJ l "id" = some id →
       detailJson (detail id) = some (Json.obj fl) →
       lookupJ fl "key_skills" = some Json.null →
       process_one detail (Json.obj l) = none) ∧
    (∀ (detail : Json → HResp) (x : Json) (xs : List Json) (acc : List Vacancy),
       process_one detail x = none →
       process_vacancies detail (x :: xs) acc = process_vacancies detail xs acc) := by
  constructor
  · intro detail l fl id h1 h2 h3
    have ha : asObj (Json.obj l) = some l := rfl
    have ha2 : asObj (Json.obj fl) = some fl := rfl
    simp [process_one, ha, ha2, h1, h2, extract_skills, h3]
  · intro detail x xs acc h
    simp [process_vacancies, h]

/-- C10 witness: a concrete detail body with a null key_skills value
makes the item yield no record. -/
theorem null_key_skills_witness :
    lookupJ c10item "id" = some (Json.str "10") ∧
    detailJson (c10detail (Json.str "10")) = some (Json.obj [("key_skills", Json.null)]) ∧
    lookupJ [("key_skills", Json.null)] "key_skills" = some Json.null ∧
    process_one c10detail (Json.obj c10item) = none :=
  ⟨rfl, rfl, rfl,
   null_key_skills_skips_item.1 c10detail c10item [("key_skills", Json.null)]
     (Json.str "10") rfl rfl rfl⟩
